import Mathlib

/-!
# Pre-Ranking Engine: shallow embedding and verification

Shallow embedding of the core of the intenus preranking engine:
the constraint validator (src/src/modules/preranking/validators/constraint.validator.ts),
the per-solution pipeline (src/src/modules/preranking/preranking.service.ts),
the intent lifecycle coordinator and its Redis-backed store
(src/unnamed/part_000 and src/unnamed/part_005), and the event ingestor
poll loop (src/src/modules/sui/sui.service.ts).

Modelling conventions:
- JavaScript bigint amounts (decimal strings in the wire form) are embedded
  as Lean Int values; the strings are assumed to be in canonical form, so
  the source guard amount !== \x7b0\x7d is embedded as amount ≠ 0.
- JavaScript Number arithmetic on gas fields is embedded as exact integer
  arithmetic (all realistic gas values are far below 2 to the 53rd, where
  Number arithmetic on integers is exact).
- The limit-price check performs floating point arithmetic in the source;
  it is embedded over exact rationals. No claim depends on the numeric
  value of a limit price; the embedding only preserves which error field
  the check can emit.
- Interpolated diagnostic message strings are elided: each embedded error
  keeps the exact field and severity of the source and a fixed message.
-/

namespace Preranking

/-! ## Data model (from the validator and its tests) -/

/-- Severity of a validation error, from the ValidationResult interface. -/
inductive Severity where
  | error
  | warning
deriving DecidableEq, Repr

/-- One entry of ValidationResult.errors. -/
structure ValidationError where
  field : String
  message : String
  severity : Severity
deriving DecidableEq, Repr

/-- Result of either validation phase. -/
structure ValidationResult where
  isValid : Bool
  errors : List ValidationError
deriving DecidableEq, Repr

/-- An (assetId, amount) pair, used for minOutputs, maxInputs,
expectedOutputs and for parsed transaction inputs. Amounts are bigint. -/
structure AssetAmount where
  assetId : String
  amount : Int
deriving DecidableEq, Repr

/-- The maxGasCost constraint object. -/
structure MaxGasCost where
  assetId : String
  amount : Int
deriving DecidableEq, Repr

/-- Routing constraints. The max_hops field is a hop count (a uint in the
intent schema). -/
structure RoutingConstraints where
  maxHops : Option Nat
  blacklistProtocols : Option (List String)
  whitelistProtocols : Option (List String)
deriving DecidableEq, Repr

/-- Direction of a limit price comparison. -/
inductive PriceComparison where
  | gte
  | lte
deriving DecidableEq, Repr

/-- The limitPrice constraint object; price is a decimal string in the
source, embedded as an exact rational. -/
structure LimitPrice where
  price : ℚ
  comparison : PriceComparison
  priceAsset : String
deriving DecidableEq, Repr

/-- The IGSConstraints object; every field is optional. -/
structure IGSConstraints where
  deadlineMs : Option Int
  maxSlippageBps : Option Nat
  minOutputs : Option (List AssetAmount)
  maxInputs : Option (List AssetAmount)
  maxGasCost : Option MaxGasCost
  routing : Option RoutingConstraints
  limitPrice : Option LimitPrice
deriving DecidableEq, Repr

/-- Amount specification of an operation input or output. -/
inductive AmountSpec where
  | exact (value : Int)
  | range (min max : Int)
  | all
deriving DecidableEq, Repr

/-- Optional asset metadata carrying the decimals used by the limit-price
normalisation. -/
structure AssetInfo where
  decimals : Nat
deriving DecidableEq, Repr

/-- One operation input or output. -/
structure OperationAsset where
  assetId : String
  amount : AmountSpec
  assetInfo : Option AssetInfo
deriving DecidableEq, Repr

/-- The expectedOutcome block of an operation. -/
structure ExpectedOutcome where
  expectedOutputs : List AssetAmount
deriving DecidableEq, Repr

/-- The operation block of an intent. -/
structure Operation where
  inputs : List OperationAsset
  outputs : List OperationAsset
  expectedOutcome : Option ExpectedOutcome
deriving DecidableEq, Repr

/-- An IGS intent, restricted to the fields the validator and pipeline
read. -/
structure IGSIntent where
  userAddress : String
  operation : Operation
  constraints : Option IGSConstraints
deriving DecidableEq, Repr

/-- An IGS solution. -/
structure IGSSolution where
  solverAddress : String
  transactionBytes : String
deriving DecidableEq, Repr

/-- A SolutionSubmitted event, as parsed by the ingestor. -/
structure SolutionSubmittedEvent where
  solutionId : String
  intentId : String
  solverAddress : String
  walrusBlobId : String
  submittedAt : Int
deriving DecidableEq, Repr

/-! ## Dry-run result model (the fields the validator reads) -/

/-- One balance change of a dry run; owner is the optional
owner.AddressOwner field and amount is signed. -/
structure BalanceChange where
  coinType : String
  owner : Option String
  amount : Int
deriving DecidableEq, Repr

/-- The gasUsed block of dry-run effects; storageRebate may be absent
(the source reads it as storageRebate || 0). -/
structure GasUsed where
  computationCost : Int
  storageCost : Int
  storageRebate : Option Int
deriving DecidableEq, Repr

/-- The effects block of a dry-run result. -/
structure DryRunEffects where
  status : Option String
  balanceChanges : Option (List BalanceChange)
  gasUsed : Option GasUsed
deriving DecidableEq, Repr

/-- A dry-run result; effects may be absent. -/
structure DryRunResult where
  effects : Option DryRunEffects
deriving DecidableEq, Repr

/-! ## Constraint validator (constraint.validator.ts) -/

/-- The deadline error emitted by validate. -/
def deadlineError : ValidationError :=
  { field := "constraints.deadlineMs"
    message := "Solution submitted after deadline"
    severity := Severity.error }

/-- The maxInputs error emitted by validate. -/
def maxInputsError : ValidationError :=
  { field := "constraints.maxInputs"
    message := "Input amount exceeds maximum"
    severity := Severity.error }

/-- The max hops error emitted by validate. -/
def maxHopsError : ValidationError :=
  { field := "constraints.routing.maxHops"
    message := "Too many routing hops"
    severity := Severity.error }

/-- The blacklist error emitted by validate. -/
def blacklistError : ValidationError :=
  { field := "constraints.routing.blacklistProtocols"
    message := "Solution uses blacklisted protocols"
    severity := Severity.error }

/-- The whitelist error emitted by validate. -/
def whitelistError : ValidationError :=
  { field := "constraints.routing.whitelistProtocols"
    message := "Solution uses non-whitelisted protocols"
    severity := Severity.error }

/-- The minOutputs error emitted when an actual output is below the
minimum. -/
def minOutputLowError : ValidationError :=
  { field := "constraints.minOutputs"
    message := "Output amount below minimum"
    severity := Severity.error }

/-- The minOutputs error emitted when the required output asset is not
found. -/
def minOutputMissingError : ValidationError :=
  { field := "constraints.minOutputs"
    message := "Required output asset not found in solution"
    severity := Severity.error }

/-- The slippage error emitted by validateComplexConstraints. -/
def slippageError : ValidationError :=
  { field := "constraints.maxSlippageBps"
    message := "Slippage exceeds maximum"
    severity := Severity.error }

/-- The gas error emitted by validateComplexConstraints. -/
def maxGasError : ValidationError :=
  { field := "constraints.maxGasCost"
    message := "Gas cost exceeds maximum"
    severity := Severity.error }

/-- The limit price error emitted by validateComplexConstraints. -/
def limitPriceError : ValidationError :=
  { field := "constraints.limitPrice"
    message := "Execution price does not meet limit"
    severity := Severity.error }

/-- The limit price warning emitted when the execution price cannot be
computed. -/
def limitPriceWarning : ValidationError :=
  { field := "constraints.limitPrice"
    message := "Unable to calculate execution price"
    severity := Severity.warning }

/-- Result of parseTransactionBytes. -/
structure ParsedTransaction where
  inputs : List AssetAmount
  outputs : List AssetAmount
  protocols : List String
  hops : Nat
  gasCost : Int
deriving DecidableEq, Repr

/-- Embeds parseTransactionBytes: the source body unconditionally returns
empty inputs and outputs, no protocols, zero hops and zero gas. -/
def parseTransactionBytes (_transactionBytes : String) : ParsedTransaction :=
  { inputs := []
    outputs := []
    protocols := []
    hops := 0
    gasCost := 0 }

/-- The deadline check of validate: one error when the solution was
submitted strictly after the window end. -/
def checkDeadline (windowEndMs : Int) (submittedSolution : SolutionSubmittedEvent) :
    List ValidationError :=
  if submittedSolution.submittedAt > windowEndMs then
    [deadlineError]
  else []

/-- The body of one iteration of the maxInputs loop of validate: an error
when the cap asset is found among the parsed transaction inputs with an
actual amount exceeding the cap. -/
def maxInputErrorsFor (parsedTx : ParsedTransaction) (maxInput : AssetAmount) :
    List ValidationError :=
  match parsedTx.inputs.find? (fun inp => inp.assetId == maxInput.assetId) with
  | some actualInput =>
      if actualInput.amount > maxInput.amount then [maxInputsError] else []
  | none => []

/-- The maxInputs loop of validate: each iteration appends the errors of
one cap. -/
def checkMaxInputs (parsedTx : ParsedTransaction) (maxInputs : List AssetAmount) :
    List ValidationError :=
  maxInputs.foldl
    (fun errs (maxInput : AssetAmount) => errs ++ maxInputErrorsFor parsedTx maxInput)
    []

/-- The routing checks of validate: max hops, blacklist, whitelist. -/
def checkRouting (parsedTx : ParsedTransaction) (routing : RoutingConstraints) :
    List ValidationError :=
  (match routing.maxHops with
   | some maxHops =>
       if parsedTx.hops > maxHops then
         [maxHopsError]
       else []
   | none => []) ++
  (match routing.blacklistProtocols with
   | some blacklistProtocols =>
       if blacklistProtocols.length > 0 then
         let blockedProtocols :=
           parsedTx.protocols.filter (fun protocol => blacklistProtocols.contains protocol)
         if blockedProtocols.length > 0 then
           [blacklistError]
         else []
       else []
   | none => []) ++
  (match routing.whitelistProtocols with
   | some whitelistProtocols =>
       if whitelistProtocols.length > 0 then
         let nonWhitelistedProtocols :=
           parsedTx.protocols.filter (fun protocol => !whitelistProtocols.contains protocol)
         if nonWhitelistedProtocols.length > 0 then
           [whitelistError]
         else []
       else []
   | none => [])

/-- The maxInputs block of validate, guarded on the presence and
non-emptiness of the constraint. -/
def phase1MaxInputErrors (parsedTx : ParsedTransaction) (constraints : IGSConstraints) :
    List ValidationError :=
  match constraints.maxInputs with
  | some maxInputs =>
      if maxInputs.length > 0 then checkMaxInputs parsedTx maxInputs else []
  | none => []

/-- The routing block of validate, guarded on the presence of the
constraint. -/
def phase1RoutingErrors (parsedTx : ParsedTransaction) (constraints : IGSConstraints) :
    List ValidationError :=
  match constraints.routing with
  | some routing => checkRouting parsedTx routing
  | none => []

/-- Embeds ConstraintValidator.validate (Phase 1). When the intent carries
no constraints object the source returns valid immediately; otherwise the
deadline, maxInputs and routing checks run in order over the parsed
transaction. -/
def validate (windowEndMs : Int) (intent : IGSIntent) (solution : IGSSolution)
    (submittedSolution : SolutionSubmittedEvent) : ValidationResult :=
  match intent.constraints with
  | none => { isValid := true, errors := [] }
  | some constraints =>
      let parsedTx := parseTransactionBytes solution.transactionBytes
      let errors :=
        checkDeadline windowEndMs submittedSolution ++
          phase1MaxInputErrors parsedTx constraints ++
          phase1RoutingErrors parsedTx constraints
      { isValid := (errors.filter (fun e => e.severity == Severity.error)).length == 0
        errors := errors }

/-- Embeds extractOutputFromDryRun: the amount of the first balance change
whose coinType equals the asset and whose amount is strictly positive;
none when effects or balanceChanges are absent or no such change exists. -/
def extractOutputFromDryRun (dryRunResult : DryRunResult) (assetId : String) :
    Option Int :=
  match dryRunResult.effects with
  | none => none
  | some effects =>
      match effects.balanceChanges with
      | none => none
      | some balanceChanges =>
          match balanceChanges.find?
              (fun bc => bc.coinType == assetId && decide (0 < bc.amount)) with
          | some balanceChange => some balanceChange.amount
          | none => none

/-- The body of one iteration of the minOutputs loop of
validateComplexConstraints: an error when the actual output is below the
minimum or the required output asset is not found. -/
def minOutputErrorsFor (dryRunResult : DryRunResult) (minOutput : AssetAmount) :
    List ValidationError :=
  match extractOutputFromDryRun dryRunResult minOutput.assetId with
  | some actualAmount =>
      if actualAmount < minOutput.amount then [minOutputLowError] else []
  | none => [minOutputMissingError]

/-- The minOutputs loop of validateComplexConstraints: each iteration
appends the errors of one minimum. -/
def checkMinOutputs (dryRunResult : DryRunResult) (minOutputs : List AssetAmount) :
    List ValidationError :=
  minOutputs.foldl
    (fun errs (minOutput : AssetAmount) => errs ++ minOutputErrorsFor dryRunResult minOutput)
    []

/-- The body of one iteration of the slippage loop of
validateComplexConstraints. JavaScript bigint division truncates toward
zero, embedded as Int.tdiv. -/
def slippageErrorsFor (dryRunResult : DryRunResult) (maxSlippageBps : Nat)
    (expectedOutput : AssetAmount) : List ValidationError :=
  match extractOutputFromDryRun dryRunResult expectedOutput.assetId with
  | some actualAmount =>
      if expectedOutput.amount ≠ 0 then
        let slippageBps : Int :=
          Int.tdiv ((expectedOutput.amount - actualAmount) * 10000)
            expectedOutput.amount
        if slippageBps > (maxSlippageBps : Int) then [slippageError] else []
      else []
  | none => []

/-- The slippage loop of validateComplexConstraints: each iteration
appends the errors of one expected output. -/
def checkSlippage (dryRunResult : DryRunResult) (expectedOutputs : List AssetAmount)
    (maxSlippageBps : Nat) : List ValidationError :=
  expectedOutputs.foldl
    (fun errs (expectedOutput : AssetAmount) =>
      errs ++ slippageErrorsFor dryRunResult maxSlippageBps expectedOutput)
    []

/-- Embeds extractGasFromDryRun: computation plus storage minus rebate,
with the rebate defaulting to zero; zero when the gasUsed block is
absent. -/
def extractGasFromDryRun (dryRunResult : DryRunResult) : Int :=
  match dryRunResult.effects with
  | none => 0
  | some effects =>
      match effects.gasUsed with
      | none => 0
      | some gasUsed =>
          gasUsed.computationCost + gasUsed.storageCost
            - gasUsed.storageRebate.getD 0

/-- The max gas check of validateComplexConstraints. -/
def checkMaxGas (dryRunResult : DryRunResult) (maxGasCost : MaxGasCost) :
    List ValidationError :=
  let gasUsed := extractGasFromDryRun dryRunResult
  if gasUsed > maxGasCost.amount then
    [maxGasError]
  else []

/-- Embeds calculateExecutionPrice over exact rationals: the realised
price from the primary input and the actual output, normalised by the
declared decimals; none when it cannot be determined. -/
def calculateExecutionPrice (intent : IGSIntent) (dryRunResult : DryRunResult)
    (priceAsset : String) : Option ℚ :=
  match intent.operation.inputs.head?, intent.operation.outputs.head? with
  | some inputAsset, some outputAsset =>
      match extractOutputFromDryRun dryRunResult outputAsset.assetId with
      | none => none
      | some actualOutput =>
          match inputAsset.amount with
          | AmountSpec.exact value =>
              let inputDecimals := (inputAsset.assetInfo.map AssetInfo.decimals).getD 0
              let outputDecimals := (outputAsset.assetInfo.map AssetInfo.decimals).getD 0
              let normalizedInput : ℚ := (value : ℚ) / (10 : ℚ) ^ inputDecimals
              let normalizedOutput : ℚ := (actualOutput : ℚ) / (10 : ℚ) ^ outputDecimals
              if priceAsset == inputAsset.assetId then
                some (normalizedInput / normalizedOutput)
              else if priceAsset == outputAsset.assetId then
                some (normalizedOutput / normalizedInput)
              else none
          | _ => none
  | _, _ => none

/-- The limit price check of validateComplexConstraints: an error when the
realised price misses the limit, a warning when the price cannot be
computed. -/
def checkLimitPrice (intent : IGSIntent) (dryRunResult : DryRunResult)
    (limitPrice : LimitPrice) : List ValidationError :=
  match calculateExecutionPrice intent dryRunResult limitPrice.priceAsset with
  | some actualPrice =>
      let meetsCondition :=
        match limitPrice.comparison with
        | PriceComparison.gte => decide (limitPrice.price ≤ actualPrice)
        | PriceComparison.lte => decide (actualPrice ≤ limitPrice.price)
      if meetsCondition then []
      else
        [limitPriceError]
  | none =>
      [limitPriceWarning]

/-- The minOutputs block of validateComplexConstraints, guarded on the
presence and non-emptiness of the constraint. -/
def phase2MinOutputErrors (dryRunResult : DryRunResult) (constraints : IGSConstraints) :
    List ValidationError :=
  match constraints.minOutputs with
  | some minOutputs =>
      if minOutputs.length > 0 then checkMinOutputs dryRunResult minOutputs else []
  | none => []

/-- The slippage block of validateComplexConstraints, guarded on the
presence of the maxSlippageBps constraint and of the declared expected
outcome. -/
def phase2SlippageErrors (intent : IGSIntent) (dryRunResult : DryRunResult)
    (constraints : IGSConstraints) : List ValidationError :=
  match constraints.maxSlippageBps, intent.operation.expectedOutcome with
  | some maxSlippageBps, some expectedOutcome =>
      checkSlippage dryRunResult expectedOutcome.expectedOutputs maxSlippageBps
  | _, _ => []

/-- The max gas block of validateComplexConstraints, guarded on the
presence of the constraint. -/
def phase2GasErrors (dryRunResult : DryRunResult) (constraints : IGSConstraints) :
    List ValidationError :=
  match constraints.maxGasCost with
  | some maxGasCost => checkMaxGas dryRunResult maxGasCost
  | none => []

/-- The limit price block of validateComplexConstraints, guarded on the
presence of the constraint. -/
def phase2LimitPriceErrors (intent : IGSIntent) (dryRunResult : DryRunResult)
    (constraints : IGSConstraints) : List ValidationError :=
  match constraints.limitPrice with
  | some limitPrice => checkLimitPrice intent dryRunResult limitPrice
  | none => []

/-- Embeds ConstraintValidator.validateComplexConstraints (Phase 2):
minOutputs, slippage, max gas and limit price checks in order; valid when
no error of severity error was collected. -/
def validateComplexConstraints (intent : IGSIntent) (_solution : IGSSolution)
    (dryRunResult : DryRunResult) : ValidationResult :=
  match intent.constraints with
  | none => { isValid := true, errors := [] }
  | some constraints =>
      let errors :=
        phase2MinOutputErrors dryRunResult constraints ++
          phase2SlippageErrors intent dryRunResult constraints ++
          phase2GasErrors dryRunResult constraints ++
          phase2LimitPriceErrors intent dryRunResult constraints
      { isValid := (errors.filter (fun e => e.severity == Severity.error)).length == 0
        errors := errors }

/-! ## Instant pre-ranking pipeline (preranking.service.ts) -/

/-- One entry of the errors list carried by a pipeline result: either a
validator error or a bare message object (as produced on a failed dry
run). -/
inductive PipelineError where
  | validation (e : ValidationError)
  | message (s : String)
deriving DecidableEq, Repr

/-- The result record of processSingleSolution, restricted to the fields
the coordinator reads. Feature extraction is a best-effort enrichment that
no claim refers to; the features payload is elided. -/
structure ProcessResult where
  passed : Bool
  failureReason : Option String
  errors : Option (List PipelineError)
deriving DecidableEq, Repr

/-- The success test applied to a dry-run result by the pipeline:
effects.status.status must equal the string success. -/
def dryRunStatusSuccess (dryRunResult : DryRunResult) : Bool :=
  match dryRunResult.effects with
  | some effects =>
      match effects.status with
      | some status => status == "success"
      | none => false
  | none => false

/-- Embeds PreRankingService.processSingleSolution. The simulator is a
parameter mapping transaction bytes to a dry-run result; the second
component of the returned pair records whether the simulator was invoked.
The error message attached to a failed dry run is elided to a fixed
string. -/
def processSingleSolution (windowEndMs : Int) (intent : IGSIntent)
    (submittedSolution : SolutionSubmittedEvent) (solution : IGSSolution)
    (dryRun : String → DryRunResult) : ProcessResult × Bool :=
  let validationResult := validate windowEndMs intent solution submittedSolution
  if !validationResult.isValid then
    ({ passed := false
       failureReason := some "Constraint validation failed"
       errors := some (validationResult.errors.map PipelineError.validation) },
     false)
  else
    let dryRunResult := dryRun solution.transactionBytes
    if !(dryRunStatusSuccess dryRunResult) then
      ({ passed := false
         failureReason := some "Dry run failed"
         errors := some [PipelineError.message "Unknown error"] },
       true)
    else
      let complexValidationResult :=
        validateComplexConstraints intent solution dryRunResult
      if !complexValidationResult.isValid then
        ({ passed := false
           failureReason := some "Complex validation failed"
           errors := some (complexValidationResult.errors.map PipelineError.validation) },
         true)
      else
        ({ passed := true, failureReason := none, errors := none }, true)

/-! ## Intent store (part_005, RedisService) and lifecycle coordinator
(part_000, IntentProcessingService)

The Redis keys of one intent are disjoint from the keys of every other
intent, and the coordinator touches only the keys of the intent of the
event it handles; the model therefore tracks the key slice of a single
intent. Record values are immaterial to the claims, so each record key is
tracked by the solution id under which it is stored. -/

/-- The payload pushed onto the ranking queue for the modelled intent. -/
structure RankingPayload where
  passedSolutions : List String
  totalSolutionsSubmitted : Nat
deriving DecidableEq, Repr

/-- The Redis key slice of one intent: the intent record, the passed and
failed sets, the per-solution record keys, and the shared ranking
queue. -/
structure RedisState where
  intentRecord : Bool
  passedSet : List String
  failedSet : List String
  passedRecordKeys : List String
  failedRecordKeys : List String
  rankingQueue : List RankingPayload
deriving DecidableEq, Repr

/-- Redis SADD on a member list: appends the member unless present. -/
def saddMember (s : List String) (x : String) : List String :=
  if s.contains x then s else s ++ [x]

/-- Redis SET on a record key list: a set of an existing key overwrites in
place, so the key list gains the key only when absent. -/
def setRecordKey (keys : List String) (x : String) : List String :=
  if keys.contains x then keys else keys ++ [x]

/-- Embeds RedisService.storeSolutionResult: write the per-solution record
and SADD the solution id to the passed set. -/
def storeSolutionResult (s : RedisState) (solutionId : String) : RedisState :=
  { s with
    passedRecordKeys := setRecordKey s.passedRecordKeys solutionId
    passedSet := saddMember s.passedSet solutionId }

/-- Embeds RedisService.storeFailedSolution: write the per-solution record
and SADD the solution id to the failed set. -/
def storeFailedSolution (s : RedisState) (solutionId : String) : RedisState :=
  { s with
    failedRecordKeys := setRecordKey s.failedRecordKeys solutionId
    failedSet := saddMember s.failedSet solutionId }

/-- Embeds RedisService.getPassedSolutions: the members of the passed set
whose per-solution record is present (absent records are filtered out). -/
def getPassedSolutions (s : RedisState) : List String :=
  s.passedSet.filter (fun solutionId => s.passedRecordKeys.contains solutionId)

/-- Embeds RedisService.getFailedSolutionCount: SCARD of the failed set. -/
def getFailedSolutionCount (s : RedisState) : Nat :=
  s.failedSet.length

/-- Embeds RedisService.deleteIntentData: delete the intent record, both
sets, and every per-solution record whose id is a member of the
corresponding set. -/
def deleteIntentData (s : RedisState) : RedisState :=
  let passedIds := s.passedSet
  let failedIds := s.failedSet
  { s with
    intentRecord := false
    passedSet := []
    failedSet := []
    passedRecordKeys := s.passedRecordKeys.filter (fun k => !(passedIds.contains k))
    failedRecordKeys := s.failedRecordKeys.filter (fun k => !(failedIds.contains k)) }

/-- Embeds RedisService.sendToRankingService: LPUSH of the payload onto
the ranking queue. -/
def pushRankingPayload (s : RedisState) (payload : RankingPayload) : RedisState :=
  { s with rankingQueue := payload :: s.rankingQueue }

/-- The in-memory IntentContext of the coordinator, restricted to the
fields the modelled steps read. -/
structure IntentContext where
  passedSolutionCount : Nat
  windowEndMs : Int
deriving DecidableEq, Repr

/-- The coordinator state for the modelled intent: its Redis key slice and
its activeIntents map entry. -/
structure CoordState where
  redis : RedisState
  activeIntent : Option IntentContext
deriving DecidableEq, Repr

/-- The coordinator state right after handleIntentSubmitted: intent record
stored, context registered with zero counters, empty sets and queue. -/
def handleIntentSubmitted (windowEndMs : Int) : CoordState :=
  { redis :=
      { intentRecord := true
        passedSet := []
        failedSet := []
        passedRecordKeys := []
        failedRecordKeys := []
        rankingQueue := [] }
    activeIntent := some { passedSolutionCount := 0, windowEndMs := windowEndMs } }

/-- Embeds handleSolutionSubmitted, parameterised by the pipeline outcome
of the event (passed or failed): without a context the event is dropped;
a passed outcome stores the result and increments the in-memory counter;
a failed outcome stores the failure record. -/
def handleSolutionOutcome (s : CoordState) (solutionId : String) (passed : Bool) :
    CoordState :=
  match s.activeIntent with
  | none => s
  | some context =>
      if passed then
        { redis := storeSolutionResult s.redis solutionId
          activeIntent :=
            some { context with passedSolutionCount := context.passedSolutionCount + 1 } }
      else
        { redis := storeFailedSolution s.redis solutionId
          activeIntent := some context }

/-- Runs a list of solution events (solution id and pipeline outcome)
through handleSolutionOutcome in order. -/
def runSolutionEvents (s : CoordState) (events : List (String × Bool)) : CoordState :=
  events.foldl (fun acc e => handleSolutionOutcome acc e.1 e.2) s

/-- Program counter of one invocation of sendToRankingService, with one
suspension point per awaited call: context read and branch, the awaited
deleteIntentData, the awaited getPassedSolutions (captured into the
invocation), the awaited getFailedSolutionCount, the awaited LPUSH, and
the synchronous activeIntents delete that runs when the final await
resolves. -/
inductive FlushPC where
  | start
  | afterDelete
  | afterList (passedSolutions : List String)
  | afterCount (passedSolutions : List String) (failedCount : Nat)
  | afterPush
  | done
deriving DecidableEq, Repr

/-- One step of an invocation of sendToRankingService, from one suspension
point to the next. -/
def flushStep (s : CoordState) (pc : FlushPC) : CoordState × FlushPC :=
  match pc with
  | FlushPC.start =>
      match s.activeIntent with
      | none => (s, FlushPC.done)
      | some context =>
          if context.passedSolutionCount = 0 then
            ({ s with redis := deleteIntentData s.redis }, FlushPC.afterDelete)
          else
            (s, FlushPC.afterList (getPassedSolutions s.redis))
  | FlushPC.afterDelete => ({ s with activeIntent := none }, FlushPC.done)
  | FlushPC.afterList passedSolutions =>
      (s, FlushPC.afterCount passedSolutions (getFailedSolutionCount s.redis))
  | FlushPC.afterCount passedSolutions failedCount =>
      ({ s with
         redis := pushRankingPayload s.redis
           { passedSolutions := passedSolutions
             totalSolutionsSubmitted := passedSolutions.length + failedCount } },
       FlushPC.afterPush)
  | FlushPC.afterPush => ({ s with activeIntent := none }, FlushPC.done)
  | FlushPC.done => (s, FlushPC.done)

/-- Embeds one complete, uninterleaved invocation of sendToRankingService
(a timer firing or a triggerSendToRanking call running to completion):
five steps cover the longest path, and steps from done are no-ops. -/
def flushRun (s : CoordState) : CoordState :=
  let r1 := flushStep s FlushPC.start
  let r2 := flushStep r1.1 r1.2
  let r3 := flushStep r2.1 r2.2
  let r4 := flushStep r3.1 r3.2
  (flushStep r4.1 r4.2).1

/-- Two concurrent invocations of sendToRankingService over a shared
coordinator state: the timer-fired one and a manually triggered one. -/
structure FlushSystem where
  coord : CoordState
  timerPC : FlushPC
  manualPC : FlushPC
deriving DecidableEq, Repr

/-- Schedules one step of one of the two invocations. -/
def sysStep (sys : FlushSystem) (thread : Bool) : FlushSystem :=
  if thread then
    let r := flushStep sys.coord sys.timerPC
    { sys with coord := r.1, timerPC := r.2 }
  else
    let r := flushStep sys.coord sys.manualPC
    { sys with coord := r.1, manualPC := r.2 }

/-- Runs a schedule (a list of thread choices) over the two-invocation
system. -/
def runSys (sys : FlushSystem) (schedule : List Bool) : FlushSystem :=
  schedule.foldl sysStep sys

/-! ## Event ingestor poll tick (sui.service.ts, pollEvents) -/

/-- A polled event with its position in the global event order and the
stream it came from. -/
structure PolledEvent where
  position : Nat
  isIntentEvent : Bool
deriving DecidableEq, Repr

/-- Embeds the handoff order of one pollEvents tick: the first loop hands
over every IntentSubmitted event in query order, the second loop then
hands over every SolutionSubmitted event in query order. -/
def pollTickHandoffs (intentEvents solutionEvents : List PolledEvent) :
    List PolledEvent :=
  let handoffs := intentEvents.foldl (fun hs e => hs ++ [e]) []
  solutionEvents.foldl (fun hs e => hs ++ [e]) handoffs


/-! ## General helper lemmas -/

/-- A foldl that appends per-item errors equals the accumulator followed
by the flat map of the item function. -/
theorem foldl_append_errors {α β : Type} (f : α → List β) (l : List α) :
    ∀ acc : List β,
      l.foldl (fun errs x => errs ++ f x) acc = acc ++ l.flatMap f := by
  induction l with
  | nil => intro acc; simp
  | cons x xs ih =>
      intro acc
      simp [List.foldl_cons, ih, List.flatMap_cons, List.append_assoc]

/-- The checkMinOutputs loop flat-maps its per-item body. -/
theorem checkMinOutputs_eq_flatMap (dryRunResult : DryRunResult)
    (minOutputs : List AssetAmount) :
    checkMinOutputs dryRunResult minOutputs =
      minOutputs.flatMap (minOutputErrorsFor dryRunResult) := by
  unfold checkMinOutputs
  simpa using foldl_append_errors (minOutputErrorsFor dryRunResult) minOutputs []

/-- The checkSlippage loop flat-maps its per-item body. -/
theorem checkSlippage_eq_flatMap (dryRunResult : DryRunResult)
    (expectedOutputs : List AssetAmount) (maxSlippageBps : Nat) :
    checkSlippage dryRunResult expectedOutputs maxSlippageBps =
      expectedOutputs.flatMap (slippageErrorsFor dryRunResult maxSlippageBps) := by
  unfold checkSlippage
  simpa using
    foldl_append_errors (slippageErrorsFor dryRunResult maxSlippageBps) expectedOutputs []

/-- The checkMaxInputs loop flat-maps its per-item body. -/
theorem checkMaxInputs_eq_flatMap (parsedTx : ParsedTransaction)
    (maxInputs : List AssetAmount) :
    checkMaxInputs parsedTx maxInputs =
      maxInputs.flatMap (maxInputErrorsFor parsedTx) := by
  unfold checkMaxInputs
  simpa using foldl_append_errors (maxInputErrorsFor parsedTx) maxInputs []

/-- A list containing an error of severity error makes the valid flag of
either phase false. -/
theorem errorFlag_false_of_mem {l : List ValidationError} {e : ValidationError}
    (he : e ∈ l) (hsev : e.severity = Severity.error) :
    ((l.filter (fun x => x.severity == Severity.error)).length == 0) = false := by
  have hmem : e ∈ l.filter (fun x => x.severity == Severity.error) :=
    List.mem_filter.mpr ⟨he, by simp [hsev]⟩
  have hne : l.filter (fun x => x.severity == Severity.error) ≠ [] :=
    List.ne_nil_of_mem hmem
  simpa [List.length_eq_zero] using hne

/-- Membership in the per-item minOutputs errors is one of the two fixed
minOutputs errors. -/
theorem mem_minOutputErrorsFor {dryRunResult : DryRunResult} {mo : AssetAmount}
    {e : ValidationError} (h : e ∈ minOutputErrorsFor dryRunResult mo) :
    e = minOutputLowError ∨ e = minOutputMissingError := by
  unfold minOutputErrorsFor at h
  rcases hx : extractOutputFromDryRun dryRunResult mo.assetId with _ | a <;> rw [hx] at h
  · right; simpa using h
  · by_cases hlt : a < mo.amount
    · left; simpa [hlt] using h
    · simp [hlt] at h

/-- Membership in the per-item slippage errors is the fixed slippage
error. -/
theorem mem_slippageErrorsFor {dryRunResult : DryRunResult} {maxSlippageBps : Nat}
    {eo : AssetAmount} {e : ValidationError}
    (h : e ∈ slippageErrorsFor dryRunResult maxSlippageBps eo) : e = slippageError := by
  unfold slippageErrorsFor at h
  rcases hx : extractOutputFromDryRun dryRunResult eo.assetId with _ | a <;> rw [hx] at h
  · simp at h
  · by_cases h0 : eo.amount ≠ 0
    · by_cases hgt :
        Int.tdiv ((eo.amount - a) * 10000) eo.amount > (maxSlippageBps : Int)
      · simpa [h0, hgt] using h
      · simp [h0, hgt] at h
    · simp [h0] at h

/-- Membership in the gas check errors is the fixed gas error. -/
theorem mem_checkMaxGas {dryRunResult : DryRunResult} {mgc : MaxGasCost}
    {e : ValidationError} (h : e ∈ checkMaxGas dryRunResult mgc) : e = maxGasError := by
  unfold checkMaxGas at h
  by_cases hgt : extractGasFromDryRun dryRunResult > mgc.amount
  · simpa [hgt] using h
  · simp [hgt] at h

/-- Membership in the limit price check errors is the fixed limit price
error or warning. -/
theorem mem_checkLimitPrice {intent : IGSIntent} {dryRunResult : DryRunResult}
    {lp : LimitPrice} {e : ValidationError}
    (h : e ∈ checkLimitPrice intent dryRunResult lp) :
    e = limitPriceError ∨ e = limitPriceWarning := by
  unfold checkLimitPrice at h
  rcases hx : calculateExecutionPrice intent dryRunResult lp.priceAsset with _ | p <;>
    rw [hx] at h
  · right; simpa using h
  · rcases hm : (match lp.comparison with
      | PriceComparison.gte => decide (lp.price ≤ p)
      | PriceComparison.lte => decide (p ≤ lp.price)) with _ | _
    · left; simpa [hm] using h
    · simp [hm] at h

/-- Membership in the slippage block of Phase 2 is the fixed slippage
error. -/
theorem mem_phase2SlippageErrors {intent : IGSIntent} {dryRunResult : DryRunResult}
    {c : IGSConstraints} {e : ValidationError}
    (h : e ∈ phase2SlippageErrors intent dryRunResult c) : e = slippageError := by
  unfold phase2SlippageErrors at h
  rcases hms : c.maxSlippageBps with _ | m <;>
    rcases heo : intent.operation.expectedOutcome with _ | eo <;> rw [hms, heo] at h
  · exact absurd (h : e ∈ ([] : List ValidationError)) (by simp)
  · exact absurd (h : e ∈ ([] : List ValidationError)) (by simp)
  · exact absurd (h : e ∈ ([] : List ValidationError)) (by simp)
  · have h2 : e ∈ checkSlippage dryRunResult eo.expectedOutputs m := h
    rw [checkSlippage_eq_flatMap, List.mem_flatMap] at h2
    rcases h2 with ⟨x, _, hx⟩
    exact mem_slippageErrorsFor hx

/-- Membership in the gas block of Phase 2 is the fixed gas error. -/
theorem mem_phase2GasErrors {dryRunResult : DryRunResult} {c : IGSConstraints}
    {e : ValidationError} (h : e ∈ phase2GasErrors dryRunResult c) : e = maxGasError := by
  unfold phase2GasErrors at h
  rcases hg : c.maxGasCost with _ | mgc <;> rw [hg] at h
  · simp at h
  · exact mem_checkMaxGas h

/-- Membership in the limit price block of Phase 2 is the fixed limit
price error or warning. -/
theorem mem_phase2LimitPriceErrors {intent : IGSIntent} {dryRunResult : DryRunResult}
    {c : IGSConstraints} {e : ValidationError}
    (h : e ∈ phase2LimitPriceErrors intent dryRunResult c) :
    e = limitPriceError ∨ e = limitPriceWarning := by
  unfold phase2LimitPriceErrors at h
  rcases hl : c.limitPrice with _ | lp <;> rw [hl] at h
  · simp at h
  · exact mem_checkLimitPrice h

/-- Membership in the minOutputs block of Phase 2 carries the minOutputs
field and error severity. -/
theorem mem_phase2MinOutputErrors {dryRunResult : DryRunResult} {c : IGSConstraints}
    {e : ValidationError} (h : e ∈ phase2MinOutputErrors dryRunResult c) :
    e.field = "constraints.minOutputs" ∧ e.severity = Severity.error := by
  unfold phase2MinOutputErrors at h
  rcases hmo : c.minOutputs with _ | mos <;> rw [hmo] at h
  · exact absurd (h : e ∈ ([] : List ValidationError)) (by simp)
  · have h2 : e ∈ (if mos.length > 0 then checkMinOutputs dryRunResult mos else []) := h
    by_cases hlen : mos.length > 0
    · rw [if_pos hlen, checkMinOutputs_eq_flatMap, List.mem_flatMap] at h2
      rcases h2 with ⟨mo, _, hmem⟩
      rcases mem_minOutputErrorsFor hmem with rfl | rfl <;> exact ⟨rfl, rfl⟩
    · rw [if_neg hlen] at h2; simp at h2

/-- The errors of Phase 2 under a present constraints object are the four
blocks in order. -/
theorem validateComplex_errors_eq {intent : IGSIntent} {sol : IGSSolution}
    {dryRunResult : DryRunResult} {c : IGSConstraints}
    (hc : intent.constraints = some c) :
    (validateComplexConstraints intent sol dryRunResult).errors =
      phase2MinOutputErrors dryRunResult c ++
        phase2SlippageErrors intent dryRunResult c ++
        phase2GasErrors dryRunResult c ++
        phase2LimitPriceErrors intent dryRunResult c := by
  simp [validateComplexConstraints, hc]

/-- Phase 2 is invalid as soon as one collected error has severity
error. -/
theorem validateComplex_isValid_false {intent : IGSIntent} {sol : IGSSolution}
    {dryRunResult : DryRunResult} {c : IGSConstraints} {e : ValidationError}
    (hc : intent.constraints = some c)
    (he : e ∈ (validateComplexConstraints intent sol dryRunResult).errors)
    (hsev : e.severity = Severity.error) :
    (validateComplexConstraints intent sol dryRunResult).isValid = false := by
  simp only [validateComplexConstraints, hc] at he ⊢
  exact errorFlag_false_of_mem he hsev


/-! ## Phase 1: the parsed transaction is empty, so only the deadline can
fail (claims C10, C2, C4) -/

/-- The maxInputs check over the pre-parsed transaction finds no input and
emits nothing. -/
theorem checkMaxInputs_parsed_nil (transactionBytes : String)
    (maxInputs : List AssetAmount) :
    checkMaxInputs (parseTransactionBytes transactionBytes) maxInputs = [] := by
  rw [checkMaxInputs_eq_flatMap]
  induction maxInputs with
  | nil => rfl
  | cons x xs ih => simp [List.flatMap_cons, ih, maxInputErrorsFor, parseTransactionBytes]

/-- The routing checks over the pre-parsed transaction see zero hops and
no protocols and emit nothing. -/
theorem checkRouting_parsed_nil (transactionBytes : String)
    (routing : RoutingConstraints) :
    checkRouting (parseTransactionBytes transactionBytes) routing = [] := by
  rcases routing with ⟨mh, bl, wl⟩
  rcases mh with _ | h <;> rcases bl with _ | b <;> rcases wl with _ | w <;>
    simp [checkRouting, parseTransactionBytes]

/-- The maxInputs block of Phase 1 emits nothing over the pre-parsed
transaction. -/
theorem phase1MaxInputErrors_parsed_nil (transactionBytes : String)
    (c : IGSConstraints) :
    phase1MaxInputErrors (parseTransactionBytes transactionBytes) c = [] := by
  unfold phase1MaxInputErrors
  rcases hmi : c.maxInputs with _ | mis
  · rfl
  · simp [checkMaxInputs_parsed_nil]

/-- The routing block of Phase 1 emits nothing over the pre-parsed
transaction. -/
theorem phase1RoutingErrors_parsed_nil (transactionBytes : String)
    (c : IGSConstraints) :
    phase1RoutingErrors (parseTransactionBytes transactionBytes) c = [] := by
  unfold phase1RoutingErrors
  rcases hr : c.routing with _ | r
  · rfl
  · simp [checkRouting_parsed_nil]

/-- C10: every error Phase 1 can report is the deadline error, because the
transaction pre-parse returns empty inputs, no protocols and zero hops, so
the maxInputs, maxHops, blacklist and whitelist checks can never emit. -/
theorem phase1_only_deadline_errors (windowEndMs : Int) (intent : IGSIntent)
    (solution : IGSSolution) (submittedSolution : SolutionSubmittedEvent) :
    ((validate windowEndMs intent solution submittedSolution).errors.all
      (fun e => e == deadlineError)) = true := by
  cases hc : intent.constraints with
  | none => simp [validate, hc]
  | some c =>
      simp only [validate, hc]
      rw [phase1MaxInputErrors_parsed_nil, phase1RoutingErrors_parsed_nil]
      simp only [List.append_nil]
      unfold checkDeadline
      by_cases hlate : submittedSolution.submittedAt > windowEndMs <;> simp [hlate]

/-- An operation with no declared inputs or outputs, used by concrete
scenario inputs. -/
def emptyOperation : Operation :=
  { inputs := [], outputs := [], expectedOutcome := none }

/-- A constraints object with every field absent, used by concrete
scenario inputs. -/
def noConstraints : IGSConstraints :=
  { deadlineMs := none, maxSlippageBps := none, minOutputs := none,
    maxInputs := none, maxGasCost := none, routing := none, limitPrice := none }

/-- A concrete intent carrying an (empty) constraints object. -/
def lateIntent : IGSIntent :=
  { userAddress := "0xuser", operation := emptyOperation,
    constraints := some noConstraints }

/-- A concrete solution. -/
def lateSolution : IGSSolution :=
  { solverAddress := "0xsolver", transactionBytes := "tx" }

/-- A concrete solution event submitted at 10, after a window end of 5. -/
def lateEvent : SolutionSubmittedEvent :=
  { solutionId := "s1", intentId := "i1", solverAddress := "0xsolver",
    walrusBlobId := "b1", submittedAt := 10 }

/-- C2 counterexample: an intent without a constraints object passes
Phase 1 validation even though the solution was submitted strictly after
the window end, because validate returns valid before the deadline check
when constraints are absent. -/
theorem deadline_no_constraints_counterexample :
    (validate 5
        { userAddress := "0xuser", operation := emptyOperation, constraints := none }
        lateSolution lateEvent).isValid = true ∧
      (validate 5
        { userAddress := "0xuser", operation := emptyOperation, constraints := none }
        lateSolution lateEvent).errors = [] ∧
      lateEvent.submittedAt > 5 :=
  ⟨rfl, rfl, by decide⟩

/-- C2 (amended): whenever the intent carries a constraints object,
Phase 1 validation is invalid with the deadline error among its collected
errors as soon as the solution was submitted strictly after the window
end. -/
theorem validate_deadline_error (windowEndMs : Int) (intent : IGSIntent)
    (solution : IGSSolution) (submittedSolution : SolutionSubmittedEvent)
    (c : IGSConstraints) (hc : intent.constraints = some c)
    (hlate : submittedSolution.submittedAt > windowEndMs) :
    (validate windowEndMs intent solution submittedSolution).isValid = false ∧
      deadlineError ∈ (validate windowEndMs intent solution submittedSolution).errors := by
  have hdl : checkDeadline windowEndMs submittedSolution = [deadlineError] := by
    simp [checkDeadline, hlate]
  have hmem : deadlineError ∈
      checkDeadline windowEndMs submittedSolution ++
        phase1MaxInputErrors (parseTransactionBytes solution.transactionBytes) c ++
        phase1RoutingErrors (parseTransactionBytes solution.transactionBytes) c := by
    simp [hdl]
  constructor
  · simp only [validate, hc]
    exact errorFlag_false_of_mem hmem rfl
  · simp only [validate, hc]
    exact hmem

/-- C2 witness: the amended deadline theorem applied to the concrete late
submission. -/
theorem validate_deadline_error_witness :
    (validate 5 lateIntent lateSolution lateEvent).isValid = false ∧
      deadlineError ∈ (validate 5 lateIntent lateSolution lateEvent).errors :=
  validate_deadline_error 5 lateIntent lateSolution lateEvent noConstraints rfl
    (by decide)

/-- C4: when Phase 1 is invalid, processSingleSolution returns the failed
result carrying the collected errors and never invokes the simulator,
whatever dry-run oracle is supplied. -/
theorem phase1_fast_fail (windowEndMs : Int) (intent : IGSIntent)
    (submittedSolution : SolutionSubmittedEvent) (solution : IGSSolution)
    (dryRun : String → DryRunResult)
    (h : (validate windowEndMs intent solution submittedSolution).isValid = false) :
    processSingleSolution windowEndMs intent submittedSolution solution dryRun =
      ({ passed := false
         failureReason := some "Constraint validation failed"
         errors := some
           ((validate windowEndMs intent solution submittedSolution).errors.map
             PipelineError.validation) },
       false) := by
  simp [processSingleSolution, h]

/-- C4 witness: the fast-fail theorem applied to the concrete late
submission with an arbitrary dry-run oracle. -/
theorem phase1_fast_fail_witness :
    processSingleSolution 5 lateIntent lateEvent lateSolution
        (fun _ => { effects := none }) =
      ({ passed := false
         failureReason := some "Constraint validation failed"
         errors := some
           ((validate 5 lateIntent lateSolution lateEvent).errors.map
             PipelineError.validation) },
       false) :=
  phase1_fast_fail 5 lateIntent lateEvent lateSolution (fun _ => { effects := none })
    (by decide)


/-! ## Phase 2 minOutputs (claim C1) -/

/-- The condition under which the source minOutputs check reports an error
for one pair: the resolved actual output (the first positive balance
change of the asset, regardless of owner) is below the minimum, or no such
change exists. -/
def minOutputViolation (dryRunResult : DryRunResult) (minOutput : AssetAmount) : Bool :=
  match extractOutputFromDryRun dryRunResult minOutput.assetId with
  | some actualAmount => decide (actualAmount < minOutput.amount)
  | none => true

/-- Modelled from the spec: the Phase 2 minOutputs rule of the
specification takes actual to be the sum of the positive balance changes
of the asset credited to the user address, absent when there is no such
change. Stated for comparison with extractOutputFromDryRun, which the
source uses instead. -/
def specMinOutputActual (dryRunResult : DryRunResult) (userAddress assetId : String) :
    Option Int :=
  match dryRunResult.effects with
  | none => none
  | some effects =>
      match effects.balanceChanges with
      | none => none
      | some balanceChanges =>
          let credited := balanceChanges.filter
            (fun bc =>
              bc.coinType == assetId && bc.owner == some userAddress &&
                decide (0 < bc.amount))
          if credited.isEmpty then none
          else some (credited.map BalanceChange.amount).sum

/-- A per-item minOutputs error witnesses the per-item violation
condition. -/
theorem minOutputViolation_of_mem {dryRunResult : DryRunResult} {mo : AssetAmount}
    {e : ValidationError} (h : e ∈ minOutputErrorsFor dryRunResult mo) :
    minOutputViolation dryRunResult mo = true := by
  unfold minOutputErrorsFor at h
  unfold minOutputViolation
  rcases hx : extractOutputFromDryRun dryRunResult mo.assetId with _ | a
  · rfl
  · rw [hx] at h
    by_cases hlt : a < mo.amount
    · simp [hlt]
    · simp [hlt] at h

/-- A per-item violation produces a per-item minOutputs error. -/
theorem exists_mem_of_minOutputViolation {dryRunResult : DryRunResult}
    {mo : AssetAmount} (h : minOutputViolation dryRunResult mo = true) :
    ∃ e ∈ minOutputErrorsFor dryRunResult mo,
      e.field = "constraints.minOutputs" ∧ e.severity = Severity.error := by
  unfold minOutputViolation at h
  unfold minOutputErrorsFor
  rcases hx : extractOutputFromDryRun dryRunResult mo.assetId with _ | a
  · exact ⟨minOutputMissingError, by simp, rfl, rfl⟩
  · rw [hx] at h
    have hlt : a < mo.amount := by simpa using h
    exact ⟨minOutputLowError, by simp [hlt], rfl, rfl⟩

/-- A constraints object with one minimum output of 100 of the asset. -/
def splitOutputsConstraints : IGSConstraints :=
  { noConstraints with minOutputs := some [⟨"0xusdc", 100⟩] }

/-- An intent requiring at least 100 of the asset credited to its user. -/
def splitOutputsIntent : IGSIntent :=
  { userAddress := "0xuser", operation := emptyOperation,
    constraints := some splitOutputsConstraints }

/-- A dry run crediting the user with two positive balance changes of 60
and 50 of the required asset. -/
def splitOutputsDryRun : DryRunResult :=
  { effects := some
      { status := some "success"
        balanceChanges := some
          [ { coinType := "0xusdc", owner := some "0xuser", amount := 60 }
          , { coinType := "0xusdc", owner := some "0xuser", amount := 50 } ]
        gasUsed := none } }

/-- C1 counterexample: the spec actual (sum of the positive credited
changes) is 110, at least the minimum of 100, so the claim demands no
min-outputs failure; the source resolves actual as the first positive
matching change (60), reports a min-outputs error and returns invalid. -/
theorem minOutputs_sum_counterexample :
    (validateComplexConstraints splitOutputsIntent lateSolution splitOutputsDryRun).isValid
        = false ∧
      (validateComplexConstraints splitOutputsIntent lateSolution
          splitOutputsDryRun).errors = [minOutputLowError] ∧
      specMinOutputActual splitOutputsDryRun "0xuser" "0xusdc" = some 110 ∧
      ¬((110 : Int) < 100) :=
  ⟨rfl, rfl, rfl, by decide⟩

/-- C1 (amended): with actual resolved as the amount of the first positive
balance change of the asset (regardless of owner and without summation),
Phase 2 reports a min-outputs error exactly when some pair has actual
below its minimum or no such change exists, and any such violation makes
the result invalid. -/
theorem validateComplex_minOutputs_characterization (intent : IGSIntent)
    (sol : IGSSolution) (dryRunResult : DryRunResult) (c : IGSConstraints)
    (mos : List AssetAmount) (hc : intent.constraints = some c)
    (hm : c.minOutputs = some mos) :
    ((∃ e ∈ (validateComplexConstraints intent sol dryRunResult).errors,
        e.field = "constraints.minOutputs") ↔
      ∃ mo ∈ mos, minOutputViolation dryRunResult mo = true) ∧
    ((∃ mo ∈ mos, minOutputViolation dryRunResult mo = true) →
      (validateComplexConstraints intent sol dryRunResult).isValid = false) := by
  have hminblock :
      phase2MinOutputErrors dryRunResult c = checkMinOutputs dryRunResult mos := by
    unfold phase2MinOutputErrors
    rw [hm]
    cases mos with
    | nil => simp [checkMinOutputs]
    | cons a l => simp
  have herr := @validateComplex_errors_eq intent sol dryRunResult c hc
  constructor
  · constructor
    · rintro ⟨e, he, hf⟩
      rw [herr] at he
      simp only [List.mem_append] at he
      rcases he with ((h1 | h2) | h3) | h4
      · rw [hminblock, checkMinOutputs_eq_flatMap, List.mem_flatMap] at h1
        rcases h1 with ⟨mo, hmo, hmem⟩
        exact ⟨mo, hmo, minOutputViolation_of_mem hmem⟩
      · rw [mem_phase2SlippageErrors h2] at hf
        exact absurd hf (by decide)
      · rw [mem_phase2GasErrors h3] at hf
        exact absurd hf (by decide)
      · rcases mem_phase2LimitPriceErrors h4 with rfl | rfl <;> exact absurd hf (by decide)
    · rintro ⟨mo, hmo, hviol⟩
      rcases exists_mem_of_minOutputViolation hviol with ⟨e, hemem, hef, _⟩
      refine ⟨e, ?_, hef⟩
      rw [herr]
      simp only [List.mem_append]
      left; left; left
      rw [hminblock, checkMinOutputs_eq_flatMap, List.mem_flatMap]
      exact ⟨mo, hmo, hemem⟩
  · rintro ⟨mo, hmo, hviol⟩
    rcases exists_mem_of_minOutputViolation hviol with ⟨e, hemem, _, hsev⟩
    refine validateComplex_isValid_false hc ?_ hsev
    rw [herr]
    simp only [List.mem_append]
    left; left; left
    rw [hminblock, checkMinOutputs_eq_flatMap, List.mem_flatMap]
    exact ⟨mo, hmo, hemem⟩

/-- C1 witness: the amended characterization applied to the concrete
split-credit dry run. -/
theorem validateComplex_minOutputs_characterization_witness :
    ((∃ e ∈ (validateComplexConstraints splitOutputsIntent lateSolution
          splitOutputsDryRun).errors,
        e.field = "constraints.minOutputs") ↔
      ∃ mo ∈ [(⟨"0xusdc", 100⟩ : AssetAmount)],
        minOutputViolation splitOutputsDryRun mo = true) ∧
    ((∃ mo ∈ [(⟨"0xusdc", 100⟩ : AssetAmount)],
        minOutputViolation splitOutputsDryRun mo = true) →
      (validateComplexConstraints splitOutputsIntent lateSolution
          splitOutputsDryRun).isValid = false) :=
  validateComplex_minOutputs_characterization splitOutputsIntent lateSolution
    splitOutputsDryRun splitOutputsConstraints [⟨"0xusdc", 100⟩] rfl rfl


/-! ## Phase 2 slippage (claim C5) -/

/-- A truncated quotient of a nonpositive dividend by a nonnegative
divisor is nonpositive. -/
theorem tdiv_nonpos_of_nonpos {n e : Int} (hn : n ≤ 0) (he : 0 ≤ e) :
    n.tdiv e ≤ 0 := by
  have h1 : 0 ≤ (-n).tdiv e := Int.tdiv_nonneg (by omega) he
  have h2 : (-n).tdiv e = -(n.tdiv e) := Int.neg_tdiv n e
  omega

/-- A floored quotient of a nonpositive dividend by a positive divisor is
nonpositive. -/
theorem fdiv_nonpos_of_nonpos {n e : Int} (hn : n ≤ 0) (he : 0 < e) :
    n.fdiv e ≤ 0 := by
  rw [Int.fdiv_eq_ediv _ he.le]
  have h1 : n / e ≤ 0 / e := Int.ediv_le_ediv he hn
  simpa using h1

/-- Against a nonnegative bound and a positive divisor, exceeding the
bound with the truncated quotient is the same as exceeding it with the
floored quotient. -/
theorem tdiv_gt_iff_fdiv_gt {n e m : Int} (he : 0 < e) (hm : 0 ≤ m) :
    m < n.tdiv e ↔ m < n.fdiv e := by
  rcases le_or_lt 0 n with hn | hn
  · rw [Int.tdiv_eq_ediv hn he.le, Int.fdiv_eq_ediv _ he.le]
  · have h1 : n.tdiv e ≤ 0 := tdiv_nonpos_of_nonpos hn.le he.le
    have h2 : n.fdiv e ≤ 0 := fdiv_nonpos_of_nonpos hn.le he
    constructor <;> intro h <;> omega

/-- Modelled from the spec: the slippage rule computes the floor of
(expected − actual) · 10000 / expected and fails when it exceeds the
allowed basis points. Stated with mathematical floor division for
comparison with the truncated bigint division of the source. -/
def slippageFloorViolation (dryRunResult : DryRunResult) (maxSlippageBps : Nat)
    (expectedOutput : AssetAmount) : Bool :=
  match extractOutputFromDryRun dryRunResult expectedOutput.assetId with
  | some actualAmount =>
      decide (0 < expectedOutput.amount) &&
        decide ((maxSlippageBps : Int) <
          Int.fdiv ((expectedOutput.amount - actualAmount) * 10000)
            expectedOutput.amount)
  | none => false

/-- A per-item slippage error witnesses the floor-division violation, for
a nonnegative expected amount. -/
theorem slippageFloorViolation_of_mem {dryRunResult : DryRunResult}
    {maxSlippageBps : Nat} {eo : AssetAmount} {e : ValidationError}
    (hpos : 0 ≤ eo.amount)
    (h : e ∈ slippageErrorsFor dryRunResult maxSlippageBps eo) :
    slippageFloorViolation dryRunResult maxSlippageBps eo = true := by
  unfold slippageErrorsFor at h
  unfold slippageFloorViolation
  rcases hx : extractOutputFromDryRun dryRunResult eo.assetId with _ | a
  · rw [hx] at h; simp at h
  · rw [hx] at h
    by_cases h0 : eo.amount ≠ 0
    · have hlt : 0 < eo.amount := by omega
      by_cases hgt :
          Int.tdiv ((eo.amount - a) * 10000) eo.amount > (maxSlippageBps : Int)
      · have hfd := (tdiv_gt_iff_fdiv_gt hlt (Int.natCast_nonneg maxSlippageBps)).mp hgt
        simp [hlt, hfd]
      · simp [h0, hgt] at h
    · simp [h0] at h

/-- A floor-division violation produces the per-item slippage error. -/
theorem mem_of_slippageFloorViolation {dryRunResult : DryRunResult}
    {maxSlippageBps : Nat} {eo : AssetAmount}
    (h : slippageFloorViolation dryRunResult maxSlippageBps eo = true) :
    slippageError ∈ slippageErrorsFor dryRunResult maxSlippageBps eo := by
  unfold slippageFloorViolation at h
  unfold slippageErrorsFor
  rcases hx : extractOutputFromDryRun dryRunResult eo.assetId with _ | a
  · rw [hx] at h; simp at h
  · rw [hx] at h
    simp only [Bool.and_eq_true, decide_eq_true_eq] at h
    rcases h with ⟨hlt, hfd⟩
    have hgt := (tdiv_gt_iff_fdiv_gt hlt (Int.natCast_nonneg maxSlippageBps)).mpr hfd
    have h0 : eo.amount ≠ 0 := by omega
    simp [h0, hgt]

/-- With the actual output at least the expected amount, the per-item
slippage errors are empty. -/
theorem slippageErrorsFor_eq_nil_of_ge {dryRunResult : DryRunResult}
    {maxSlippageBps : Nat} {eo : AssetAmount} (hpos : 0 ≤ eo.amount)
    (hge : ∀ a, extractOutputFromDryRun dryRunResult eo.assetId = some a →
      eo.amount ≤ a) :
    slippageErrorsFor dryRunResult maxSlippageBps eo = [] := by
  unfold slippageErrorsFor
  rcases hx : extractOutputFromDryRun dryRunResult eo.assetId with _ | a
  · rfl
  · have ha := hge a hx
    by_cases h0 : eo.amount ≠ 0
    · have hprod : (eo.amount - a) * 10000 ≤ 0 := by nlinarith
      have htd : Int.tdiv ((eo.amount - a) * 10000) eo.amount ≤ 0 :=
        tdiv_nonpos_of_nonpos hprod hpos
      have hngt :
          ¬ Int.tdiv ((eo.amount - a) * 10000) eo.amount > (maxSlippageBps : Int) := by
        have := Int.natCast_nonneg maxSlippageBps
        omega
      simp [h0, hngt]
    · simp [h0]

/-- C5: over nonnegative expected amounts, Phase 2 reports a slippage
error exactly when some expected output with a positive expected amount
and a resolvable actual output has floor((expected − actual) · 10000 /
expected) strictly above max_slippage_bps; when every resolvable actual is
at least its expected amount, no slippage error is ever reported. -/
theorem slippage_floor_characterization (intent : IGSIntent) (sol : IGSSolution)
    (dryRunResult : DryRunResult) (c : IGSConstraints) (maxSlippageBps : Nat)
    (eo : ExpectedOutcome) (hc : intent.constraints = some c)
    (hms : c.maxSlippageBps = some maxSlippageBps)
    (heo : intent.operation.expectedOutcome = some eo)
    (hpos : ∀ mo ∈ eo.expectedOutputs, 0 ≤ mo.amount) :
    ((∃ e ∈ (validateComplexConstraints intent sol dryRunResult).errors,
        e.field = "constraints.maxSlippageBps") ↔
      ∃ mo ∈ eo.expectedOutputs,
        slippageFloorViolation dryRunResult maxSlippageBps mo = true) ∧
    ((∀ mo ∈ eo.expectedOutputs, ∀ a,
        extractOutputFromDryRun dryRunResult mo.assetId = some a → mo.amount ≤ a) →
      ¬∃ e ∈ (validateComplexConstraints intent sol dryRunResult).errors,
          e.field = "constraints.maxSlippageBps") := by
  have hslipblock : phase2SlippageErrors intent dryRunResult c =
      checkSlippage dryRunResult eo.expectedOutputs maxSlippageBps := by
    unfold phase2SlippageErrors
    rw [hms, heo]
  have herr := @validateComplex_errors_eq intent sol dryRunResult c hc
  have hiff : (∃ e ∈ (validateComplexConstraints intent sol dryRunResult).errors,
      e.field = "constraints.maxSlippageBps") ↔
      ∃ mo ∈ eo.expectedOutputs,
        slippageFloorViolation dryRunResult maxSlippageBps mo = true := by
    constructor
    · rintro ⟨e, he, hf⟩
      rw [herr] at he
      simp only [List.mem_append] at he
      rcases he with ((h1 | h2) | h3) | h4
      · rcases mem_phase2MinOutputErrors h1 with ⟨hfield, _⟩
        rw [hfield] at hf
        exact absurd hf (by decide)
      · rw [hslipblock, checkSlippage_eq_flatMap, List.mem_flatMap] at h2
        rcases h2 with ⟨mo, hmo, hmem⟩
        exact ⟨mo, hmo, slippageFloorViolation_of_mem (hpos mo hmo) hmem⟩
      · rw [mem_phase2GasErrors h3] at hf
        exact absurd hf (by decide)
      · rcases mem_phase2LimitPriceErrors h4 with rfl | rfl <;> exact absurd hf (by decide)
    · rintro ⟨mo, hmo, hviol⟩
      refine ⟨slippageError, ?_, rfl⟩
      rw [herr]
      simp only [List.mem_append]
      left; left; right
      rw [hslipblock, checkSlippage_eq_flatMap, List.mem_flatMap]
      exact ⟨mo, hmo, mem_of_slippageFloorViolation hviol⟩
  refine ⟨hiff, ?_⟩
  rintro hge ⟨e, he, hf⟩
  rcases hiff.mp ⟨e, he, hf⟩ with ⟨mo, hmo, hviol⟩
  have hnil := @slippageErrorsFor_eq_nil_of_ge dryRunResult maxSlippageBps mo
    (hpos mo hmo) (hge mo hmo)
  have := mem_of_slippageFloorViolation hviol
  rw [hnil] at this
  simp at this

/-- A constraints object allowing at most 100 basis points of slippage. -/
def slippageConstraints : IGSConstraints :=
  { noConstraints with maxSlippageBps := some 100 }

/-- An intent expecting 100000 of the asset under the 100 bps cap. -/
def slippageIntent : IGSIntent :=
  { userAddress := "0xuser"
    operation :=
      { inputs := [], outputs := []
        expectedOutcome := some { expectedOutputs := [⟨"0xusdc", 100000⟩] } }
    constraints := some slippageConstraints }

/-- A dry run crediting 95000 of the expected asset: 500 bps of
slippage. -/
def slippageDryRun : DryRunResult :=
  { effects := some
      { status := some "success"
        balanceChanges := some
          [ { coinType := "0xusdc", owner := some "0xuser", amount := 95000 } ]
        gasUsed := none } }

/-- C5 witness: the slippage characterization applied to the concrete
500 bps scenario. -/
theorem slippage_floor_characterization_witness :
    ((∃ e ∈ (validateComplexConstraints slippageIntent lateSolution
          slippageDryRun).errors,
        e.field = "constraints.maxSlippageBps") ↔
      ∃ mo ∈ [(⟨"0xusdc", 100000⟩ : AssetAmount)],
        slippageFloorViolation slippageDryRun 100 mo = true) ∧
    ((∀ mo ∈ [(⟨"0xusdc", 100000⟩ : AssetAmount)], ∀ a,
        extractOutputFromDryRun slippageDryRun mo.assetId = some a → mo.amount ≤ a) →
      ¬∃ e ∈ (validateComplexConstraints slippageIntent lateSolution
          slippageDryRun).errors,
          e.field = "constraints.maxSlippageBps") :=
  slippage_floor_characterization slippageIntent lateSolution slippageDryRun
    slippageConstraints 100 { expectedOutputs := [⟨"0xusdc", 100000⟩] } rfl rfl rfl
    (by decide)


/-! ## Phase 2 max gas (claim C6) -/

/-- C6: with the gas fields present in the dry run, Phase 2 reports a
max-gas error exactly when computation + storage − rebate (rebate
defaulting to 0 when absent) exceeds max_gas_cost, and any such excess
makes the result invalid. -/
theorem max_gas_characterization (intent : IGSIntent) (sol : IGSSolution)
    (dryRunResult : DryRunResult) (c : IGSConstraints) (mgc : MaxGasCost)
    (effects : DryRunEffects) (g : GasUsed)
    (hc : intent.constraints = some c) (hg : c.maxGasCost = some mgc)
    (he : dryRunResult.effects = some effects) (hgu : effects.gasUsed = some g) :
    ((∃ e ∈ (validateComplexConstraints intent sol dryRunResult).errors,
        e.field = "constraints.maxGasCost") ↔
      mgc.amount < g.computationCost + g.storageCost - g.storageRebate.getD 0) ∧
    ((mgc.amount < g.computationCost + g.storageCost - g.storageRebate.getD 0) →
      (validateComplexConstraints intent sol dryRunResult).isValid = false) := by
  have hgas : extractGasFromDryRun dryRunResult =
      g.computationCost + g.storageCost - g.storageRebate.getD 0 := by
    simp [extractGasFromDryRun, he, hgu]
  have hgasblock : phase2GasErrors dryRunResult c = checkMaxGas dryRunResult mgc := by
    unfold phase2GasErrors
    rw [hg]
  have herr := @validateComplex_errors_eq intent sol dryRunResult c hc
  have hmemgas :
      (mgc.amount < g.computationCost + g.storageCost - g.storageRebate.getD 0) →
      maxGasError ∈ (validateComplexConstraints intent sol dryRunResult).errors := by
    intro hlt
    rw [herr]
    simp only [List.mem_append]
    left; right
    rw [hgasblock]
    unfold checkMaxGas
    rw [hgas, if_pos hlt]
    simp
  constructor
  · constructor
    · rintro ⟨e, he2, hf⟩
      rw [herr] at he2
      simp only [List.mem_append] at he2
      rcases he2 with ((h1 | h2) | h3) | h4
      · rcases mem_phase2MinOutputErrors h1 with ⟨hfield, _⟩
        rw [hfield] at hf
        exact absurd hf (by decide)
      · rw [mem_phase2SlippageErrors h2] at hf
        exact absurd hf (by decide)
      · rw [hgasblock] at h3
        unfold checkMaxGas at h3
        rw [hgas] at h3
        by_cases hlt :
            mgc.amount < g.computationCost + g.storageCost - g.storageRebate.getD 0
        · exact hlt
        · rw [if_neg hlt] at h3
          simp at h3
      · rcases mem_phase2LimitPriceErrors h4 with rfl | rfl <;> exact absurd hf (by decide)
    · intro hlt
      exact ⟨maxGasError, hmemgas hlt, rfl⟩
  · intro hlt
    exact validateComplex_isValid_false hc (hmemgas hlt) rfl

/-- A constraints object capping gas at 10000000. -/
def gasConstraints : IGSConstraints :=
  { noConstraints with maxGasCost := some ⟨"0x2::sui::SUI", 10000000⟩ }

/-- An intent with the 10000000 gas cap. -/
def gasIntent : IGSIntent :=
  { userAddress := "0xuser", operation := emptyOperation,
    constraints := some gasConstraints }

/-- The gasUsed block of the gas-cap scenario: 15000000 computation,
1000000 storage, 0 rebate. -/
def gasUsedScenario : GasUsed :=
  { computationCost := 15000000, storageCost := 1000000, storageRebate := some 0 }

/-- The effects of the gas-cap scenario. -/
def gasEffects : DryRunEffects :=
  { status := some "success", balanceChanges := none, gasUsed := some gasUsedScenario }

/-- The dry run of the gas-cap scenario: total gas 16000000 against a cap
of 10000000. -/
def gasDryRun : DryRunResult :=
  { effects := some gasEffects }

/-- C6 witness: the gas characterization applied to the concrete gas-cap
scenario. -/
theorem max_gas_characterization_witness :
    ((∃ e ∈ (validateComplexConstraints gasIntent lateSolution gasDryRun).errors,
        e.field = "constraints.maxGasCost") ↔
      (10000000 : Int) < 15000000 + 1000000 - (some (0 : Int)).getD 0) ∧
    (((10000000 : Int) < 15000000 + 1000000 - (some (0 : Int)).getD 0) →
      (validateComplexConstraints gasIntent lateSolution gasDryRun).isValid = false) :=
  max_gas_characterization gasIntent lateSolution gasDryRun gasConstraints
    ⟨"0x2::sui::SUI", 10000000⟩ gasEffects gasUsedScenario rfl rfl rfl rfl


/-! ## Coordinator flush (claims C3 and C7) -/

/-- A flush over a state without an active context does nothing. -/
theorem flushRun_of_none {s : CoordState} (h : s.activeIntent = none) :
    flushRun s = s := by
  simp [flushRun, flushStep, h]

/-- A flush over a context with zero passed solutions deletes the intent
tree and removes the active entry. -/
theorem flushRun_of_zero {s : CoordState} {c : IntentContext}
    (h : s.activeIntent = some c) (h0 : c.passedSolutionCount = 0) :
    flushRun s = { redis := deleteIntentData s.redis, activeIntent := none } := by
  simp [flushRun, flushStep, h, h0]

/-- A flush over a context with passed solutions reads the passed set,
pushes one ranking payload and removes the active entry. -/
theorem flushRun_of_pos {s : CoordState} {c : IntentContext}
    (h : s.activeIntent = some c) (h0 : c.passedSolutionCount ≠ 0) :
    flushRun s =
      { redis := pushRankingPayload s.redis
          { passedSolutions := getPassedSolutions s.redis
            totalSolutionsSubmitted :=
              (getPassedSolutions s.redis).length + getFailedSolutionCount s.redis }
        activeIntent := none } := by
  simp [flushRun, flushStep, h, h0]

/-- A coordinator state with one passed solution and an empty ranking
queue, about to flush. -/
def racingCoordState : CoordState :=
  { redis :=
      { intentRecord := true
        passedSet := ["s1"]
        failedSet := []
        passedRecordKeys := ["s1"]
        failedRecordKeys := []
        rankingQueue := [] }
    activeIntent := some { passedSolutionCount := 1, windowEndMs := 0 } }

/-- The racing state with a timer-fired flush and a manual flush both at
their entry point. -/
def racingFlushSystem : FlushSystem :=
  { coord := racingCoordState, timerPC := FlushPC.start, manualPC := FlushPC.start }

/-- C3 counterexample: a schedule interleaving a timer flush and a manual
flush at their await points pushes two ranking payloads for the same
intent, refuting at-most-once over arbitrary traces: the timer flush reads
the context, suspends, the manual flush then runs to completion, and the
timer flush resumes and pushes again. -/
theorem flush_interleaving_counterexample :
    (runSys racingFlushSystem
        [true, false, false, false, false, true, true]).coord.redis.rankingQueue.length
      = 2 := by decide

/-- C3 (amended): when flush invocations are serialized (each
sendToRankingService call runs to completion before the next begins),
starting from an empty ranking queue, any number of flushes pushes at most
one payload, and once a payload has been pushed the active context is
deleted. -/
theorem flush_at_most_once_serialized (s0 : CoordState)
    (h : s0.redis.rankingQueue = []) (n : Nat) :
    ((flushRun^[n]) s0).redis.rankingQueue.length ≤ 1 ∧
      (((flushRun^[n]) s0).redis.rankingQueue ≠ [] →
        ((flushRun^[n]) s0).activeIntent = none) := by
  induction n with
  | zero => simp [h]
  | succ n ih =>
      rw [Function.iterate_succ_apply']
      rcases ih with ⟨hlen, hctx⟩
      rcases hact : ((flushRun^[n]) s0).activeIntent with _ | c
      · rw [flushRun_of_none hact]
        exact ⟨hlen, hctx⟩
      · have hq : ((flushRun^[n]) s0).redis.rankingQueue = [] := by
          by_contra hne
          rw [hctx hne] at hact
          cases hact
        by_cases h0 : c.passedSolutionCount = 0
        · rw [flushRun_of_zero hact h0]
          refine ⟨?_, fun _ => rfl⟩
          simp [deleteIntentData, hq]
        · rw [flushRun_of_pos hact h0]
          refine ⟨?_, fun _ => rfl⟩
          simp [pushRankingPayload, hq]

/-- C3 witness: two serialized flushes from the racing coordinator state
push at most one payload. -/
theorem flush_at_most_once_serialized_witness :
    ((flushRun^[2]) racingCoordState).redis.rankingQueue.length ≤ 1 ∧
      (((flushRun^[2]) racingCoordState).redis.rankingQueue ≠ [] →
        ((flushRun^[2]) racingCoordState).activeIntent = none) :=
  flush_at_most_once_serialized racingCoordState rfl 2

/-- A coordinator state with zero passed and one failed solution. -/
def emptyFlushState : CoordState :=
  { redis :=
      { intentRecord := true
        passedSet := []
        failedSet := ["s9"]
        passedRecordKeys := []
        failedRecordKeys := ["s9"]
        rankingQueue := [] }
    activeIntent := some { passedSolutionCount := 0, windowEndMs := 7 } }

/-- C7: a flush whose context counts zero passed solutions deletes the
intent record, both sets and every per-solution record (the record keys
being members of their sets), removes the active entry, and pushes nothing
onto the ranking queue. -/
theorem flush_empty_deletes_tree (s : CoordState) (c : IntentContext)
    (hactive : s.activeIntent = some c) (hzero : c.passedSolutionCount = 0)
    (hpk : ∀ k ∈ s.redis.passedRecordKeys, k ∈ s.redis.passedSet)
    (hfk : ∀ k ∈ s.redis.failedRecordKeys, k ∈ s.redis.failedSet) :
    (flushRun s).redis.intentRecord = false ∧
      (flushRun s).redis.passedSet = [] ∧
      (flushRun s).redis.failedSet = [] ∧
      (flushRun s).redis.passedRecordKeys = [] ∧
      (flushRun s).redis.failedRecordKeys = [] ∧
      (flushRun s).activeIntent = none ∧
      (flushRun s).redis.rankingQueue = s.redis.rankingQueue := by
  rw [flushRun_of_zero hactive hzero]
  refine ⟨rfl, rfl, rfl, ?_, ?_, rfl, rfl⟩
  · simp only [deleteIntentData]
    rw [List.filter_eq_nil_iff]
    intro k hk
    simpa using hpk k hk
  · simp only [deleteIntentData]
    rw [List.filter_eq_nil_iff]
    intro k hk
    simpa using hfk k hk

/-- C7 witness: the empty-flush theorem applied to a concrete state with
one failed solution and no passed solutions. -/
theorem flush_empty_deletes_tree_witness :
    (flushRun emptyFlushState).redis.intentRecord = false ∧
      (flushRun emptyFlushState).redis.passedSet = [] ∧
      (flushRun emptyFlushState).redis.failedSet = [] ∧
      (flushRun emptyFlushState).redis.passedRecordKeys = [] ∧
      (flushRun emptyFlushState).redis.failedRecordKeys = [] ∧
      (flushRun emptyFlushState).activeIntent = none ∧
      (flushRun emptyFlushState).redis.rankingQueue = emptyFlushState.redis.rankingQueue :=
  flush_empty_deletes_tree emptyFlushState { passedSolutionCount := 0, windowEndMs := 7 }
    rfl rfl (by decide) (by decide)


/-! ## Counter consistency (claim C8) -/

/-- C8 counterexample: re-delivering the same passing (intent, solution)
event twice leaves the in-memory counter at 2 while the stored passed set,
deduplicated by SADD, has cardinality 1. -/
theorem passed_count_redelivery_counterexample :
    (runSolutionEvents (handleIntentSubmitted 0)
        [("s1", true), ("s1", true)]).activeIntent =
      some { passedSolutionCount := 2, windowEndMs := 0 } ∧
    (runSolutionEvents (handleIntentSubmitted 0)
        [("s1", true), ("s1", true)]).redis.passedSet.length = 1 :=
  ⟨rfl, rfl⟩

/-- Counter consistency is preserved along any run of solution events with
pairwise distinct, fresh solution ids. -/
theorem runSolutionEvents_counter (events : List (String × Bool)) :
    ∀ (s : CoordState) (c : IntentContext),
      s.activeIntent = some c →
      c.passedSolutionCount = s.redis.passedSet.length →
      (∀ e ∈ events, e.1 ∉ s.redis.passedSet) →
      (events.map Prod.fst).Nodup →
      ∃ c2, (runSolutionEvents s events).activeIntent = some c2 ∧
        c2.passedSolutionCount = (runSolutionEvents s events).redis.passedSet.length := by
  induction events with
  | nil =>
      intro s c hact hcount _ _
      exact ⟨c, hact, hcount⟩
  | cons ev rest ih =>
      intro s c hact hcount hnotin hnodup
      rcases ev with ⟨sid, passed⟩
      have hstep : runSolutionEvents s ((sid, passed) :: rest) =
          runSolutionEvents (handleSolutionOutcome s sid passed) rest := rfl
      rw [hstep]
      have hnodup2 : (rest.map Prod.fst).Nodup := (List.nodup_cons.mp hnodup).2
      have hfresh : sid ∉ rest.map Prod.fst := (List.nodup_cons.mp hnodup).1
      cases passed with
      | true =>
          have hnot : sid ∉ s.redis.passedSet :=
            hnotin (sid, true) (List.mem_cons_self _ _)
          have hnotc : s.redis.passedSet.contains sid = false := by
            simpa using hnot
          refine ih (handleSolutionOutcome s sid true)
            { passedSolutionCount := c.passedSolutionCount + 1
              windowEndMs := c.windowEndMs } ?_ ?_ ?_ hnodup2
          · simp [handleSolutionOutcome, hact]
          · simp [handleSolutionOutcome, hact, storeSolutionResult, saddMember, hnot,
              hcount]
          · intro e he
            have h1 : e.1 ∉ s.redis.passedSet := hnotin e (List.mem_cons_of_mem _ he)
            have h2 : e.1 ≠ sid := by
              intro hcontra
              exact hfresh (hcontra ▸ List.mem_map_of_mem Prod.fst he)
            simp [handleSolutionOutcome, hact, storeSolutionResult, saddMember, hnot,
              h1, h2]
      | false =>
          refine ih (handleSolutionOutcome s sid false) c ?_ ?_ ?_ hnodup2
          · simp [handleSolutionOutcome, hact]
          · simpa [handleSolutionOutcome, hact, storeFailedSolution] using hcount
          · intro e he
            have h1 : e.1 ∉ s.redis.passedSet := hnotin e (List.mem_cons_of_mem _ he)
            simpa [handleSolutionOutcome, hact, storeFailedSolution] using h1

/-- C8 (amended): over any run of solution events whose solution ids are
pairwise distinct (no re-delivery), the in-memory passed count of the
active intent equals the cardinality of the stored passed set after every
such run (and hence at every observable point, each prefix being such a
run). -/
theorem passed_count_matches_set (windowEndMs : Int)
    (events : List (String × Bool)) (hnodup : (events.map Prod.fst).Nodup) :
    ∃ c, (runSolutionEvents (handleIntentSubmitted windowEndMs) events).activeIntent
        = some c ∧
      c.passedSolutionCount =
        (runSolutionEvents (handleIntentSubmitted windowEndMs)
          events).redis.passedSet.length :=
  runSolutionEvents_counter events (handleIntentSubmitted windowEndMs)
    { passedSolutionCount := 0, windowEndMs := windowEndMs } rfl rfl
    (by simp [handleIntentSubmitted]) hnodup

/-- C8 witness: the counter consistency theorem applied to a concrete
two-event run with distinct solution ids. -/
theorem passed_count_matches_set_witness :
    ∃ c, (runSolutionEvents (handleIntentSubmitted 9)
        [("s1", true), ("s2", false)]).activeIntent = some c ∧
      c.passedSolutionCount =
        (runSolutionEvents (handleIntentSubmitted 9)
          [("s1", true), ("s2", false)]).redis.passedSet.length :=
  passed_count_matches_set 9 [("s1", true), ("s2", false)] (by decide)

/-! ## Poll tick handoff order (claim C9) -/

/-- A foldl that appends singletons concatenates the list onto the
accumulator. -/
theorem foldl_append_one {α : Type} (l : List α) :
    ∀ acc : List α, l.foldl (fun hs e => hs ++ [e]) acc = acc ++ l := by
  induction l with
  | nil => intro acc; simp
  | cons x xs ih => intro acc; simp [List.foldl_cons, ih]

/-- The handoffs of one poll tick are the intent events followed by the
solution events. -/
theorem pollTickHandoffs_eq (intentEvents solutionEvents : List PolledEvent) :
    pollTickHandoffs intentEvents solutionEvents = intentEvents ++ solutionEvents := by
  unfold pollTickHandoffs
  rw [foldl_append_one, foldl_append_one]
  simp

/-- An intent event at position 5. -/
def intentEventAt5 : PolledEvent := { position := 5, isIntentEvent := true }

/-- A solution event at position 3. -/
def solutionEventAt3 : PolledEvent := { position := 3, isIntentEvent := false }

/-- C9 counterexample: with one intent event at position 5 and one
solution event at position 3 (each stream ascending), the merged handoff
order of a poll tick is (5, 3), which is not ascending by event
position. -/
theorem poll_merge_order_counterexample :
    List.Chain' (fun a b => a.position ≤ b.position) [intentEventAt5] ∧
      List.Chain' (fun a b => a.position ≤ b.position) [solutionEventAt3] ∧
      ¬ List.Chain' (fun a b => a.position ≤ b.position)
          (pollTickHandoffs [intentEventAt5] [solutionEventAt3]) := by
  refine ⟨List.chain'_singleton _, List.chain'_singleton _, ?_⟩
  intro h
  have heval : pollTickHandoffs [intentEventAt5] [solutionEventAt3] =
      [intentEventAt5, solutionEventAt3] := rfl
  rw [heval, List.chain'_cons] at h
  exact absurd h.1 (by decide)

/-- C9 (amended): within a poll tick all IntentSubmitted events are handed
over before all SolutionSubmitted events; each stream is delivered exactly
and in its own (ascending) query order, but the merged order is not
ascending across the two streams. -/
theorem poll_handoff_stream_order (intentEvents solutionEvents : List PolledEvent)
    (hie : ∀ e ∈ intentEvents, e.isIntentEvent = true)
    (hse : ∀ e ∈ solutionEvents, e.isIntentEvent = false)
    (hsortedI : List.Chain' (fun a b => a.position ≤ b.position) intentEvents)
    (hsortedS : List.Chain' (fun a b => a.position ≤ b.position) solutionEvents) :
    (pollTickHandoffs intentEvents solutionEvents).filter
        (fun e => e.isIntentEvent) = intentEvents ∧
      (pollTickHandoffs intentEvents solutionEvents).filter
        (fun e => !e.isIntentEvent) = solutionEvents ∧
      List.Chain' (fun a b => a.position ≤ b.position)
        ((pollTickHandoffs intentEvents solutionEvents).filter
          (fun e => e.isIntentEvent)) ∧
      List.Chain' (fun a b => a.position ≤ b.position)
        ((pollTickHandoffs intentEvents solutionEvents).filter
          (fun e => !e.isIntentEvent)) := by
  have h1 : (pollTickHandoffs intentEvents solutionEvents).filter
      (fun e => e.isIntentEvent) = intentEvents := by
    rw [pollTickHandoffs_eq, List.filter_append]
    rw [List.filter_eq_self.mpr hie]
    rw [List.filter_eq_nil_iff.mpr (fun e he => by simp [hse e he])]
    simp
  have h2 : (pollTickHandoffs intentEvents solutionEvents).filter
      (fun e => !e.isIntentEvent) = solutionEvents := by
    rw [pollTickHandoffs_eq, List.filter_append]
    rw [List.filter_eq_nil_iff.mpr (fun e he => by simp [hie e he])]
    rw [List.filter_eq_self.mpr (fun e he => by simp [hse e he])]
    simp
  refine ⟨h1, h2, ?_, ?_⟩
  · rw [h1]; exact hsortedI
  · rw [h2]; exact hsortedS

/-- C9 witness: the stream-order theorem applied to the concrete
two-event tick. -/
theorem poll_handoff_stream_order_witness :
    (pollTickHandoffs [intentEventAt5] [solutionEventAt3]).filter
        (fun e => e.isIntentEvent) = [intentEventAt5] ∧
      (pollTickHandoffs [intentEventAt5] [solutionEventAt3]).filter
        (fun e => !e.isIntentEvent) = [solutionEventAt3] ∧
      List.Chain' (fun a b => a.position ≤ b.position)
        ((pollTickHandoffs [intentEventAt5] [solutionEventAt3]).filter
          (fun e => e.isIntentEvent)) ∧
      List.Chain' (fun a b => a.position ≤ b.position)
        ((pollTickHandoffs [intentEventAt5] [solutionEventAt3]).filter
          (fun e => !e.isIntentEvent)) :=
  poll_handoff_stream_order [intentEventAt5] [solutionEventAt3] (by decide) (by decide)
    (List.chain'_singleton _) (List.chain'_singleton _)


end Preranking
